import Mathlib

/-!
Verification development for the cosmwasm-simulate interactive contract
simulator (single source file `src/main.rs`).

The embedding below models Rust `String` values that are built
character-by-character (push / push_str / pop) as `List Char`, so that the
source's `pop()` becomes `List.dropLast` and `push_str` becomes `++`.
Session-level values (addresses, call types, HTTP payloads) that are only
compared or concatenated are modelled as Lean `String`.

Components whose Rust source lives in the `contract_vm` module (not part of
the provided sources) are modelled from the specification and marked
`Modelled from the spec:` in their doc comments.  Everything else is a direct
translation of the corresponding function in `src/main.rs`.
-/

/-- Characters of a string literal, the `List Char` representation used for
the message-constructor embedding. -/
def str (s : String) : List Char := s.data

/-- Abbreviation for the character-list representation of Rust `String`. -/
abbrev Str := List Char

/-- Modelled from the spec: a schema member `(member_name, member_def)` as
produced by the (external) analyzer module. -/
structure Member where
  member_name : Str
  member_def : Str
deriving DecidableEq, Inhabited

/-- Modelled from the spec: the part of the analyzer's `TypeSchema` used by
the message constructor: `map_of_basetype` (alias name to primitive name)
and `map_of_struct` (struct name to ordered field list). -/
structure Schema where
  map_of_basetype : List (Str × Str)
  map_of_struct : List (Str × List (Str × Str))
deriving Inhabited

/-- Association-list lookup used for the schema maps. -/
def lookupStr {α : Type} (l : List (Str × α)) (k : Str) : Option α :=
  match l with
  | [] => none
  | p :: rest => if p.1 = k then some p.2 else lookupStr rest k

/-- Modelled from the spec: the terminal editor's `readline`
(`input_with_out_handle` in `src/main.rs`), which appends one value taken
from the interactive value source to the given buffer.  The value source is
modelled as the list of values the operator will supply, consumed in order. -/
def input_with_out_handle (buf : Str) (inputs : List Str) : Str × List Str :=
  (buf ++ inputs.headD [], inputs.tail)

/-- Translation of `check_is_need_slash` (src/main.rs lines 158-164): only
the generic `string` primitive type requires quoting. -/
def check_is_need_slash (name : Str) : Bool :=
  name = str "string"

/-- Translation of the two chained `replace` calls in `to_json_item`
(src/main.rs line 189): first remove newline characters, then replace each
double quote by a backslash-quote pair. -/
def escape_data (data : Str) : Str :=
  (data.filter (fun c => c ≠ '\n')).flatMap
    (fun c => if c = '"' then ['\\', '"'] else [c])

/-- Translation of `to_json_item` (src/main.rs lines 166-197): strip an
optional `?` suffix; read one value; when the value is empty and the field
is optional emit nothing; otherwise emit `"name":value,` with the value
quoted and escaped exactly when the resolved base type is `string`. -/
def to_json_item (name : Str) (type_name : Str) (schema : Schema)
    (inputs : List Str) : Str × List Str :=
  let stripped :=
    if type_name.getLast? = some '?' then (type_name.dropLast, true)
    else (type_name, false)
  let strip_type_name := stripped.1
  let optional := stripped.2
  let read := input_with_out_handle [] inputs
  let data := read.1
  let rest := read.2
  if data = [] ∧ optional then ([], rest)
  else
    let mapped_type_name :=
      match lookupStr schema.map_of_basetype strip_type_name with
      | none => strip_type_name
      | some v => v
    let value :=
      if check_is_need_slash mapped_type_name then
        ['"'] ++ escape_data data ++ ['"']
      else data
    (['"'] ++ name ++ ['"', ':'] ++ value ++ [','], rest)

/-- Sequentially run an item builder over a list of fields, threading the
value source; returns the emitted fragments in field order. -/
def fold_items {α : Type} (f : α → List Str → Str × List Str) :
    List α → List Str → List Str × List Str
  | [], inputs => ([], inputs)
  | x :: xs, inputs =>
    let s := f x inputs
    let rest := fold_items f xs s.2
    (s.1 :: rest.1, rest.2)

/-- Translation of `input_type` (src/main.rs lines 199-237): a member whose
type is not a known struct goes through `to_json_item`; a struct with no
fields is prompted as a single raw value appended after the key; a struct
with fields emits the members in the schema's stored order, pops the last
character (the intended trailing comma) and closes the braces. -/
def input_type (mem_name : Str) (type_name : Str) (schema : Schema)
    (inputs : List Str) : Str × List Str :=
  match lookupStr schema.map_of_struct type_name with
  | none => to_json_item mem_name type_name schema inputs
  | some fields =>
    let params := ['"'] ++ mem_name ++ ['"', ':']
    if fields.length = 0 then
      let read := input_with_out_handle params inputs
      (read.1 ++ [','], read.2)
    else
      let folded :=
        fold_items (fun p ins => to_json_item p.1 p.2 schema ins) fields inputs
      let params2 := params ++ ['{'] ++ folded.1.flatten
      let params3 := if fields.length > 0 then params2.dropLast else params2
      (params3 ++ ['}'] ++ [','], folded.2)

/-- The fragments emitted for a variant's member list, in declared order
(the `for vcm in members` loop of `input_message`). -/
def message_items (members : List Member) (schema : Schema)
    (inputs : List Str) : List Str × List Str :=
  fold_items (fun m ins => input_type m.member_name m.member_def schema ins)
    members inputs

/-- Translation of `input_message` (src/main.rs lines 239-267): open a brace
(wrapping the variant name as an object key when the group is an enum), emit
every member in declared order, pop the last character when the member list
is non-empty, and close the braces. -/
def input_message (name : Str) (members : List Member) (schema : Schema)
    (is_enum : Bool) (inputs : List Str) : Str × List Str :=
  let final0 := ['{'] ++ (if is_enum then ['"'] ++ name ++ ['"', ':', '{'] else [])
  let im := message_items members schema inputs
  let final1 := final0 ++ im.1.flatten
  let final2 := if members.length > 0 then final1.dropLast else final1
  let final3 := final2 ++ ['}']
  ((if is_enum then final3 ++ ['}'] else final3), im.2)

/-- Modelled from the spec: the opaque storage snapshot of a contract
instance (the `MockStorage` key/value store), as a key/value list. -/
abbrev Storage := List (String × String)

/-- Reading one key from a storage snapshot. -/
def readStorage (s : Storage) (k : String) : Option String :=
  match s with
  | [] => none
  | p :: rest => if p.1 = k then some p.2 else readStorage rest k

/-- Modelled from the spec: a live contract instance binds the loaded module
and the storage snapshot it was seeded with (`ContractInstance` of the
external engine module). -/
structure ContractInstance where
  module : String
  storage : Storage
deriving DecidableEq, Inhabited

/-- The registry of live instances (`ENGINES: HashMap<String,
ContractInstance>`), modelled as an association list with unique keys. -/
abbrev Registry := List (String × ContractInstance)

/-- `HashMap::get`: lookup by contract address. -/
def regGet (r : Registry) (k : String) : Option ContractInstance :=
  match r with
  | [] => none
  | p :: rest => if p.1 = k then some p.2 else regGet rest k

/-- `HashMap::insert`: replace the instance stored at an existing key, or
append a new entry. -/
def regInsert (r : Registry) (k : String) (v : ContractInstance) : Registry :=
  match r with
  | [] => [(k, v)]
  | p :: rest => if p.1 = k then (k, v) :: rest else p :: regInsert rest k v

/-- Modelled from the spec: `ContractInstance::new_instance` loads the
artifact (outcome of the external engine given as `load_result`) and, on
success, produces an instance seeded with the given storage snapshot. -/
def new_instance (load_result : Except String String) (storage : Storage) :
    Except String ContractInstance :=
  match load_result with
  | .error e => .error e
  | .ok m => .ok ⟨m, storage⟩

/-- Translation of `insert_engine` (src/main.rs lines 602-623): construct a
new instance; on failure only report (the registry is untouched); on success
insert it under the contract address.  The external artifact loading is the
function `load` from file path to engine outcome; `sender_addr` is carried
for fidelity with the source signature. -/
def insert_engine (load : String → Except String String)
    (wasm_file contract_addr sender_addr : String) (storage : Storage)
    (engines : Registry) : Registry :=
  match new_instance (load wasm_file) storage with
  | .error _ => engines
  | .ok engine => regInsert engines contract_addr engine

/-- One pass of the `for index in 0..len` loop of `watch_and_update`
(src/main.rs lines 635-675): each entry carries `((wasm_file,
contract_addr), current fs mtime, last observed mtime)`; an unchanged mtime
is skipped; a changed mtime records the new mtime and rebuilds the instance,
seeding it from the live instance's storage when one exists and from the
default (empty) storage otherwise. -/
def watch_pass (load : String → Except String String) (sender_addr : String) :
    List ((String × String) × Nat × Nat) → Registry → List Nat × Registry
  | [], engines => ([], engines)
  | ((wasm_file, contract_addr), mtime, lastMod) :: rest, engines =>
    if mtime = lastMod then
      let (ms, e) := watch_pass load sender_addr rest engines
      (lastMod :: ms, e)
    else
      let engines' :=
        match regGet engines contract_addr with
        | some eng =>
          insert_engine load wasm_file contract_addr sender_addr eng.storage engines
        | none =>
          insert_engine load wasm_file contract_addr sender_addr [] engines
      let (ms, e) := watch_pass load sender_addr rest engines'
      (mtime :: ms, e)

/-- Watcher state threaded through poll iterations: last observed
modification times, the registry, and the log of readiness notifications
sent over the channel. -/
structure WatchState where
  modified : List Nat
  engines : Registry
  sent : List String
deriving Inhabited

/-- One iteration of the outer `loop` of `watch_and_update` (src/main.rs
lines 634-684): run the pass over all tracked artifacts, then — still inside
the loop — send the first tracked contract's address on the channel whenever
at least one artifact is tracked. -/
def watch_iteration (load : String → Except String String)
    (sender_addr : String) (wasm_files : List (String × String))
    (mtimes : List Nat) (st : WatchState) : WatchState :=
  let (ms, engines) :=
    watch_pass load sender_addr
      ((wasm_files.zip (mtimes.zip st.modified)).map (fun x => (x.1, x.2.1, x.2.2)))
      st.engines
  let sent' :=
    if wasm_files.length > 0 then st.sent ++ [(wasm_files.headD ("", "")).2]
    else st.sent
  ⟨ms, engines, sent'⟩

/-- Modelled from the spec: the terminal editor's `readline` for
session-level prompts, consuming one line from the operator input list. -/
def read_input (inputs : List String) : String × List String :=
  (inputs.headD "", inputs.tail)

/-- Translation of `get_call_type` (src/main.rs lines 269-351): read a call
type; switching is offered exactly when more than one contract is
registered; an input that is none of init/handle/query is rejected only when
switching is offered and the input is not `switch`; on `switch`, read an
address and reject it when unregistered, otherwise return `(address, true)`;
otherwise return `(call_type, false)`. -/
def get_call_type (engines : Registry) (inputs : List String) :
    Option (String × Bool) × List String :=
  let (call_type, rest) := read_input inputs
  let need_switch := engines.length > 1
  if call_type ≠ "init" ∧ call_type ≠ "handle" ∧ call_type ≠ "query" ∧
      need_switch ∧ call_type ≠ "switch" then
    (none, rest)
  else if need_switch ∧ call_type = "switch" then
    let (call_param, rest') := read_input rest
    if regGet engines call_param = none then (none, rest')
    else (some (call_param, true), rest')
  else
    (some (call_type, false), rest)

/-- Outcome of one pass of the `simulate_by_auto_analyze` loop head: repeat
the loop, return control to the caller (the switch path), or proceed to
variant selection and dispatch for the chosen call type. -/
inductive SimStep where
  | repeatLoop : SimStep
  | returnSwitch (shouldContinue : Bool) (newAddress : String) : SimStep
  | dispatch (call_type : String) : SimStep
deriving DecidableEq

/-- Translation of the head of the `simulate_by_auto_analyze` loop body
(src/main.rs lines 363-382): call-type selection and the switch branch.  As
in the source, `call_param` is a freshly created empty string at the point
of the switch comparison (line 379 compares the active address against
`call_param`, not against the chosen address `call_type`).  The remainder of
the loop body (variant selection, message construction and `engine.call`) is
summarized by the `dispatch` outcome. -/
def simulate_step (activeAddr : String) (engines : Registry)
    (inputs : List String) : SimStep × List String :=
  match get_call_type engines inputs with
  | (none, rest) => (.repeatLoop, rest)
  | (some (call_type, is_switch), rest) =>
    if is_switch then
      let call_param := ""
      if activeAddr ≠ call_param then (.returnSwitch true call_type, rest)
      else (.repeatLoop, rest)
    else (.dispatch call_type, rest)

/-- Translation of `call_engine` (src/main.rs lines 40-53): look the address
up in the registry, base64-decode then UTF-8-decode the payload, and run the
engine call; every failure is returned as an error value.  The external
base64 decoder, UTF-8 decoder and engine call are parameters. -/
def call_engine (engines : Registry)
    (decode : String → Except String (List Nat))
    (from_utf8 : List Nat → Except String String)
    (call : ContractInstance → String → String → String)
    (contract_addr func_type msg : String) : Except String String :=
  match regGet engines contract_addr with
  | none => .error ("No such contract: " ++ contract_addr)
  | some engine =>
    match decode msg with
    | .ok input =>
      match from_utf8 input with
      | .ok param => .ok (call engine func_type param)
      | .error err => .error err
    | .error err => .error err

/-- The JSON body built by the three route handlers (src/main.rs lines
55-77): `\x7b"data": <result>\x7d` on success and
`\x7b"error": "<message>"\x7d` on failure. -/
def json_response (r : Except String String) : String :=
  match r with
  | .ok data => "\x7b\"data\": " ++ data ++ "\x7d"
  | .error err => "\x7b\"error\": \"" ++ err ++ "\"\x7d"

/-- Common body of the three HTTP route handlers, keyed by the call type. -/
def contract_route (engines : Registry)
    (decode : String → Except String (List Nat))
    (from_utf8 : List Nat → Except String String)
    (call : ContractInstance → String → String → String)
    (address func_type msg : String) : String :=
  json_response (call_engine engines decode from_utf8 call address func_type msg)

/-- Translation of `init_contract` (src/main.rs lines 55-61). -/
def init_contract (engines : Registry)
    (decode : String → Except String (List Nat))
    (from_utf8 : List Nat → Except String String)
    (call : ContractInstance → String → String → String)
    (address msg : String) : String :=
  contract_route engines decode from_utf8 call address "init" msg

/-- Translation of `handle_contract` (src/main.rs lines 63-69). -/
def handle_contract (engines : Registry)
    (decode : String → Except String (List Nat))
    (from_utf8 : List Nat → Except String String)
    (call : ContractInstance → String → String → String)
    (address msg : String) : String :=
  contract_route engines decode from_utf8 call address "handle" msg

/-- Translation of `query_contract` (src/main.rs lines 71-77). -/
def query_contract (engines : Registry)
    (decode : String → Except String (List Nat))
    (from_utf8 : List Nat → Except String String)
    (call : ContractInstance → String → String → String)
    (address msg : String) : String :=
  contract_route engines decode from_utf8 call address "query" msg

/-- Concatenation of fragments separated by `sep`, the shape the message
constructor's output is compared against. -/
def joinSep (sep : Str) : List Str → Str
  | [] => []
  | [x] => x
  | x :: xs => x ++ sep ++ joinSep sep xs

/-! ### Helper lemmas -/

/-- Empty fragments do not contribute to the concatenated output. -/
theorem flatten_filter_ne_nil (l : List Str) :
    (l.filter (fun s => !s.isEmpty)).flatten = l.flatten := by
  induction l with
  | nil => rfl
  | cons s rest ih =>
    by_cases hs : s = []
    · subst hs
      simpa using ih
    · have : s.isEmpty = false := by
        simpa [List.isEmpty_iff] using hs
      simp [List.filter_cons, this, ih]

/-- Popping the final character of concatenated comma-terminated fragments
yields the comma-separated join of the fragments with their trailing commas
removed. -/
theorem flatten_dropLast_joinSep :
    ∀ (l : List Str), (∀ s ∈ l, ∃ c, s = c ++ [',']) → l ≠ [] →
      l.flatten.dropLast = joinSep [','] (l.map List.dropLast)
  | [], _, hne => absurd rfl hne
  | [x], h, _ => by
    obtain ⟨c, hc⟩ := h x (by simp)
    simp [joinSep, hc]
  | x :: y :: ys, h, _ => by
    obtain ⟨c, hc⟩ := h x (by simp)
    have hys : ∀ s ∈ y :: ys, ∃ c, s = c ++ [','] := fun s hs => h s (by simp [hs])
    have ih := flatten_dropLast_joinSep (y :: ys) hys (by simp)
    obtain ⟨cy, hcy⟩ := h y (by simp)
    have hflat : (y :: ys).flatten ≠ [] := by
      simp [List.flatten_cons, hcy]
    have hstep : (x :: y :: ys).flatten.dropLast = x ++ (y :: ys).flatten.dropLast := by
      rw [List.flatten_cons]
      exact List.dropLast_append_of_ne_nil x hflat
    rw [hstep, ih]
    have hx : x.dropLast = c := by simp [hc]
    simp only [List.map_cons, joinSep, hx, hc]
    simp

/-- Every fragment emitted by `to_json_item` is either empty (an omitted
optional field) or of the form `"name":value,`. -/
theorem to_json_item_shape (n t : Str) (schema : Schema) (inputs : List Str) :
    (to_json_item n t schema inputs).1 = [] ∨
    ∃ core, (to_json_item n t schema inputs).1 =
      ['"'] ++ n ++ ['"', ':'] ++ core ++ [','] := by
  unfold to_json_item input_with_out_handle
  dsimp only
  split
  · dsimp only
    split
    · exact Or.inl rfl
    · exact Or.inr ⟨_, rfl⟩
  · dsimp only
    split
    · rename_i h
      simp at h
    · exact Or.inr ⟨_, rfl⟩

/-- Every fragment emitted by `input_type` is either empty (an omitted
optional field) or of the form `"name":core,`: the member's key at the
front, the field separator at the end. -/
theorem input_type_shape (n t : Str) (schema : Schema) (inputs : List Str) :
    (input_type n t schema inputs).1 = [] ∨
    ∃ core, (input_type n t schema inputs).1 =
      ['"'] ++ n ++ ['"', ':'] ++ core ++ [','] := by
  unfold input_type
  split
  · exact to_json_item_shape n t schema inputs
  · rename_i fields heq
    dsimp only [input_with_out_handle]
    split
    · exact Or.inr ⟨_, rfl⟩
    · rename_i hlen
      have hpos : fields.length > 0 := Nat.pos_of_ne_zero hlen
      simp only [if_pos hpos]
      refine Or.inr ⟨('{' :: (fold_items (fun p ins => to_json_item p.1 p.2 schema ins)
        fields inputs).1.flatten).dropLast ++ ['}'], ?_⟩
      generalize (fold_items (fun p ins => to_json_item p.1 p.2 schema ins)
        fields inputs).1.flatten = F
      have h1 : (['"'] ++ n ++ ['"', ':'] ++ ['{'] ++ F : Str)
          = (['"'] ++ n ++ ['"', ':']) ++ ('{' :: F) := by simp
      rw [h1, List.dropLast_append_of_ne_nil _ (by simp)]
      simp

/-- The constructor emits exactly one fragment per field. -/
theorem fold_items_length {α : Type} (f : α → List Str → Str × List Str)
    (xs : List α) (inputs : List Str) :
    (fold_items f xs inputs).1.length = xs.length := by
  induction xs generalizing inputs with
  | nil => rfl
  | cons x rest ih => simp [fold_items, ih]

/-- The fragment at position `i` is the one the item builder produces for
the field at position `i` (at some intermediate state of the value source). -/
theorem fold_items_getD {α : Type} (f : α → List Str → Str × List Str)
    (d : α) (xs : List α) (inputs : List Str) (i : Nat) (h : i < xs.length) :
    ∃ ins, (fold_items f xs inputs).1.getD i [] = (f (xs.getD i d) ins).1 := by
  induction xs generalizing inputs i with
  | nil => simp at h
  | cons x rest ih =>
    cases i with
    | zero => exact ⟨inputs, by simp [fold_items]⟩
    | succ j =>
      have hj : j < rest.length := by simpa using h
      obtain ⟨ins, hins⟩ := ih (f x inputs).2 j hj
      exact ⟨ins, by simpa [fold_items] using hins⟩

/-- Each emitted fragment comes from some field of the list (used to carry
the per-fragment shape facts to the whole fragment list). -/
theorem fold_items_mem {α : Type} (f : α → List Str → Str × List Str)
    (xs : List α) (inputs : List Str) (s : Str)
    (hs : s ∈ (fold_items f xs inputs).1) : ∃ x ins, x ∈ xs ∧ s = (f x ins).1 := by
  induction xs generalizing inputs with
  | nil => simp [fold_items] at hs
  | cons x rest ih =>
    simp only [fold_items, List.mem_cons] at hs
    rcases hs with hs | hs
    · exact ⟨x, inputs, by simp, hs⟩
    · obtain ⟨y, ins, hy, hval⟩ := ih (f x inputs).2 hs
      exact ⟨y, ins, by simp [hy], hval⟩

/-- The message constructor output, explicitly: when the concatenated
fragments are non-empty, the popped character is the last character of the
fragment concatenation, and the enum wrapper is untouched. -/
theorem input_message_structure (name : Str) (members : List Member)
    (schema : Schema) (is_enum : Bool) (inputs : List Str)
    (h : (message_items members schema inputs).1.flatten ≠ []) :
    (input_message name members schema is_enum inputs).1 =
      (if is_enum then ['{', '"'] ++ name ++ ['"', ':'] else []) ++ ['{'] ++
        (message_items members schema inputs).1.flatten.dropLast ++ ['}'] ++
        (if is_enum then ['}'] else []) := by
  have hitems : (message_items members schema inputs).1 ≠ [] := by
    intro hnil
    exact h (by simp [hnil])
  have hlen : members.length > 0 := by
    rcases members with _ | _
    · exact absurd (by simp [message_items, fold_items]) hitems
    · simp
  unfold input_message
  dsimp only
  rw [if_pos hlen]
  generalize hF : (message_items members schema inputs).1.flatten = F at h ⊢
  cases is_enum with
  | false =>
    have h1 : (['{'] ++ (if (false : Bool) = true then ['"'] ++ name ++ ['"', ':', '{'] else []) ++ F : Str)
        = ['{'] ++ F := by simp
    rw [h1, List.dropLast_append_of_ne_nil _ h]
    simp
  | true =>
    have h1 : (['{'] ++ (if (true : Bool) = true then ['"'] ++ name ++ ['"', ':', '{'] else []) ++ F : Str)
        = (['{', '"'] ++ name ++ ['"', ':']) ++ (['{'] ++ F) := by simp
    rw [h1, List.dropLast_append_of_ne_nil _ (show (['{'] ++ F : Str) ≠ [] by simp)]
    rw [List.dropLast_append_of_ne_nil _ h]
    simp

/-- A non-empty fragment of a variant's member list ends in the field
separator. -/
theorem message_items_comma (members : List Member) (schema : Schema)
    (inputs : List Str) :
    ∀ s ∈ (message_items members schema inputs).1, s ≠ [] →
      ∃ c, s = c ++ [','] := by
  intro s hs hne
  obtain ⟨m, ins, _, hval⟩ := fold_items_mem _ members inputs s hs
  rcases input_type_shape m.member_name m.member_def schema ins with h | ⟨core, hcore⟩
  · exact absurd (hval.trans h) hne
  · exact ⟨['"'] ++ m.member_name ++ ['"', ':'] ++ core, by rw [hval, hcore]⟩

/-- A fragment list with a non-empty member has a non-empty concatenation. -/
theorem flatten_ne_nil_of_mem (l : List Str) (s : Str) (hs : s ∈ l)
    (hne : s ≠ []) : l.flatten ≠ [] := by
  intro h
  rw [List.flatten_eq_nil_iff] at h
  exact hne (h s hs)

/-- C4: for every variant with field list `members`, the message constructor
emits one fragment per field, in the schema's declared order; when every
fragment is non-empty the payload is the fragments (each carrying its own
field's key and stripped of its trailing separator) joined by single commas
between braces, with no trailing separator; when the field list is empty the
payload is `\x7b\x7d` with no separator at all. -/
theorem input_message_declared_order (name : Str) (members : List Member)
    (schema : Schema) (inputs : List Str) :
    (members = [] → (input_message name members schema false inputs).1 = str "\x7b\x7d")
    ∧ (message_items members schema inputs).1.length = members.length
    ∧ ((∀ s ∈ (message_items members schema inputs).1, s ≠ []) → members ≠ [] →
        (input_message name members schema false inputs).1 =
          ['{'] ++ joinSep [',']
            ((message_items members schema inputs).1.map List.dropLast) ++ ['}'])
    ∧ ((∀ s ∈ (message_items members schema inputs).1, s ≠ []) →
        ∀ i, i < members.length → ∃ core,
          (message_items members schema inputs).1.getD i [] =
            ['"'] ++ (members.getD i default).member_name ++ ['"', ':'] ++ core ++ [',']) := by
  refine ⟨?_, ?_, ?_, ?_⟩
  · intro h
    subst h
    rfl
  · exact fold_items_length _ members inputs
  · intro hall hne
    have hlen : (message_items members schema inputs).1.length = members.length :=
      fold_items_length _ members inputs
    have hitems : (message_items members schema inputs).1 ≠ [] := by
      intro h0
      rw [h0] at hlen
      exact hne (List.length_eq_zero.mp hlen.symm)
    obtain ⟨s, hs⟩ := List.exists_mem_of_ne_nil _ hitems
    have hflat : (message_items members schema inputs).1.flatten ≠ [] :=
      flatten_ne_nil_of_mem _ s hs (hall s hs)
    have hstruct := input_message_structure name members schema false inputs hflat
    rw [hstruct]
    rw [flatten_dropLast_joinSep _ (fun t ht => message_items_comma members schema
      inputs t ht (hall t ht)) hitems]
    simp
  · intro hall i hi
    have hlen : (message_items members schema inputs).1.length = members.length :=
      fold_items_length _ members inputs
    have hi' : i < (message_items members schema inputs).1.length := by
      rw [hlen]
      exact hi
    obtain ⟨ins, hins⟩ := fold_items_getD
      (fun m ins => input_type m.member_name m.member_def schema ins)
      default members inputs i hi
    have hmem : (message_items members schema inputs).1.getD i [] ∈
        (message_items members schema inputs).1 := by
      rw [List.getD_eq_getElem _ _ hi']
      exact List.getElem_mem hi'
    have hne := hall _ hmem
    rcases input_type_shape (members.getD i default).member_name
        (members.getD i default).member_def schema ins with h | ⟨core, hcore⟩
    · exact absurd (hins.trans h) hne
    · exact ⟨core, hins.trans hcore⟩

/-- Witness for C4 at a two-field variant with values supplied for both
fields. -/
theorem input_message_declared_order_witness :
    (∀ s ∈ (message_items [⟨str "a", str "string"⟩, ⟨str "b", str "u32"⟩]
        ⟨[], []⟩ [str "x", str "7"]).1, s ≠ []) ∧
    ([⟨str "a", str "string"⟩, ⟨str "b", str "u32"⟩] : List Member) ≠ [] ∧
    (input_message (str "m") [⟨str "a", str "string"⟩, ⟨str "b", str "u32"⟩]
        ⟨[], []⟩ false [str "x", str "7"]).1 =
      ['{'] ++ joinSep [','] ((message_items [⟨str "a", str "string"⟩, ⟨str "b", str "u32"⟩]
        ⟨[], []⟩ [str "x", str "7"]).1.map List.dropLast) ++ ['}'] :=
  ⟨by decide, by decide,
    (input_message_declared_order (str "m")
      [⟨str "a", str "string"⟩, ⟨str "b", str "u32"⟩]
      ⟨[], []⟩ [str "x", str "7"]).2.2.1 (by decide) (by decide)⟩

/-- C5: for an enum message group the payload emitted by the message
constructor is exactly the non-enum payload of the same members wrapped as
`\x7b"<variant>": <payload>\x7d`; for a non-enum group the payload is the
field object directly with no wrapping key, and with an empty field list it
is `\x7b\x7d`. -/
theorem input_message_enum_wrap (name : Str) (members : List Member)
    (schema : Schema) (inputs : List Str) :
    (input_message name members schema true inputs).1 =
      ['{', '"'] ++ name ++ ['"', ':'] ++
        (input_message name members schema false inputs).1 ++ ['}']
    ∧ (members = [] → (input_message name members schema false inputs).1 = str "\x7b\x7d") := by
  constructor
  · unfold input_message
    dsimp only
    by_cases hm : members.length > 0
    · rw [if_pos hm, if_pos hm]
      generalize (message_items members schema inputs).1.flatten = F
      have h1 : (['{'] ++ (if (true : Bool) = true then ['"'] ++ name ++ ['"', ':', '{'] else []) ++ F : Str)
          = (['{', '"'] ++ name ++ ['"', ':']) ++ (['{'] ++ F) := by simp
      rw [h1, List.dropLast_append_of_ne_nil _ (show (['{'] ++ F : Str) ≠ [] by simp)]
      simp
    · rw [if_neg hm, if_neg hm]
      simp
  · intro h
    subst h
    rfl

/-- Witness for C5 at the no-field variant `increment`. -/
theorem input_message_enum_wrap_witness :
    (input_message (str "increment") [] ⟨[], []⟩ true []).1 =
      ['{', '"'] ++ str "increment" ++ ['"', ':'] ++
        (input_message (str "increment") [] ⟨[], []⟩ false []).1 ++ ['}']
    ∧ (input_message (str "increment") [] ⟨[], []⟩ false []).1 = str "\x7b\x7d" :=
  ⟨(input_message_enum_wrap (str "increment") [] ⟨[], []⟩ []).1,
   (input_message_enum_wrap (str "increment") [] ⟨[], []⟩ []).2 rfl⟩

/-- Counterexample to C3 as stated: with a single optional field
(`string?`) left blank — the combination in which all fields of the
enclosing object are optional and omitted — the separator-removal step
deletes the opening brace and the emitted payload is the single character
`\x7d`, which is not syntactically valid JSON (the valid omission payload
would be `\x7b\x7d`). -/
theorem input_message_all_optional_omitted_cex :
    (input_message (str "msg") [⟨str "memo", str "string?"⟩] ⟨[], []⟩ false [[]]).1
      = str "\x7d"
    ∧ (input_message (str "msg") [⟨str "memo", str "string?"⟩] ⟨[], []⟩ false [[]]).1
      ≠ str "\x7b\x7d" := by
  constructor
  · decide
  · decide

/-- C3 (amended): an optional field whose supplied value is empty emits
nothing — no key and no separator; and whenever at least one field of the
enclosing object is emitted, the payload is the non-empty fragments joined
by single commas between braces (no dangling separator), with the enum
wrapper intact. -/
theorem input_message_optional_omission (name : Str) (members : List Member)
    (schema : Schema) (is_enum : Bool) (inputs : List Str) :
    (∀ n t sch rest, List.getLast? t = some '?' →
        (to_json_item n t sch ([] :: rest)).1 = [])
    ∧ ((∃ s ∈ (message_items members schema inputs).1, s ≠ []) →
        (input_message name members schema is_enum inputs).1 =
          (if is_enum then ['{', '"'] ++ name ++ ['"', ':'] else []) ++ ['{'] ++
            joinSep [','] (((message_items members schema inputs).1.filter
              (fun s => !s.isEmpty)).map List.dropLast) ++ ['}'] ++
          (if is_enum then ['}'] else [])) := by
  constructor
  · intro n t sch rest h
    simp [to_json_item, input_with_out_handle, h]
  · rintro ⟨s, hs, hne⟩
    have hflat : (message_items members schema inputs).1.flatten ≠ [] :=
      flatten_ne_nil_of_mem _ s hs hne
    rw [input_message_structure name members schema is_enum inputs hflat]
    have hfil : (message_items members schema inputs).1.flatten =
        ((message_items members schema inputs).1.filter (fun s => !s.isEmpty)).flatten :=
      (flatten_filter_ne_nil _).symm
    have hsfil : s ∈ (message_items members schema inputs).1.filter (fun s => !s.isEmpty) := by
      rw [List.mem_filter]
      exact ⟨hs, by simpa [List.isEmpty_iff] using hne⟩
    have hfilne : (message_items members schema inputs).1.filter (fun s => !s.isEmpty) ≠ [] :=
      List.ne_nil_of_mem hsfil
    rw [hfil, flatten_dropLast_joinSep _ ?_ hfilne]
    intro t ht
    have ht' := List.mem_filter.mp ht
    exact message_items_comma members schema inputs t ht'.1
      (by simpa [List.isEmpty_iff] using ht'.2)

/-- Witness for the amended C3: blank optional `memo` next to a supplied
`name` field. -/
theorem input_message_optional_omission_witness :
    (∃ s ∈ (message_items [⟨str "name", str "string"⟩, ⟨str "memo", str "string?"⟩]
        ⟨[], []⟩ [str "bob", []]).1, s ≠ []) ∧
    (input_message (str "m") [⟨str "name", str "string"⟩, ⟨str "memo", str "string?"⟩]
        ⟨[], []⟩ false [str "bob", []]).1 =
      (if false then ['{', '"'] ++ str "m" ++ ['"', ':'] else []) ++ ['{'] ++
        joinSep [','] (((message_items [⟨str "name", str "string"⟩, ⟨str "memo", str "string?"⟩]
          ⟨[], []⟩ [str "bob", []]).1.filter
            (fun s => !s.isEmpty)).map List.dropLast) ++ ['}'] ++
      (if false then ['}'] else []) :=
  ⟨by decide,
    (input_message_optional_omission (str "m")
      [⟨str "name", str "string"⟩, ⟨str "memo", str "string?"⟩]
      ⟨[], []⟩ false [str "bob", []]).2 (by decide)⟩

/-- C10: a non-optional field with an empty supplied value still emits its
key: `"<name>":"",` when the resolved base type is the generic `string`,
and `"<name>":,` (no value text before the separator) for every other
resolved type. -/
theorem to_json_item_required_always_emits (name t : Str) (schema : Schema)
    (rest : List Str) (h : List.getLast? t ≠ some '?') :
    (to_json_item name t schema ([] :: rest)).1 =
      ['"'] ++ name ++ ['"', ':'] ++
        (if (match lookupStr schema.map_of_basetype t with
              | none => t
              | some v => v) = str "string"
          then ['"', '"'] else []) ++ [','] := by
  unfold to_json_item input_with_out_handle check_is_need_slash
  dsimp only
  rw [if_neg h]
  dsimp only
  rw [if_neg (by simp)]
  split
  · rename_i hst
    rw [if_pos (by simpa [escape_data] using hst)]
    simp [escape_data]
  · rename_i hst
    rw [if_neg (by simpa [escape_data] using hst)]
    simp

/-- Witness for C10: an unaliased `u32` field and a `Uint128` field aliased
to `string`, both with empty input. -/
theorem to_json_item_required_always_emits_witness :
    (List.getLast? (str "u32") ≠ some '?'
      ∧ (to_json_item (str "x") (str "u32") ⟨[], []⟩ [[]]).1 =
        ['"'] ++ str "x" ++ ['"', ':'] ++
          (if (match lookupStr (⟨[], []⟩ : Schema).map_of_basetype (str "u32") with
                | none => str "u32"
                | some v => v) = str "string"
            then ['"', '"'] else []) ++ [','])
    ∧ (List.getLast? (str "Uint128") ≠ some '?'
      ∧ (to_json_item (str "y") (str "Uint128")
          ⟨[(str "Uint128", str "string")], []⟩ [[]]).1 =
        ['"'] ++ str "y" ++ ['"', ':'] ++
          (if (match lookupStr (⟨[(str "Uint128", str "string")], []⟩ : Schema).map_of_basetype
                  (str "Uint128") with
                | none => str "Uint128"
                | some v => v) = str "string"
            then ['"', '"'] else []) ++ [',']) :=
  ⟨⟨by decide, to_json_item_required_always_emits (str "x") (str "u32") ⟨[], []⟩ [] (by decide)⟩,
   ⟨by decide, to_json_item_required_always_emits (str "y") (str "Uint128")
      ⟨[(str "Uint128", str "string")], []⟩ [] (by decide)⟩⟩

/-- Inserting at a key makes it the registered instance for that key. -/
theorem regGet_regInsert_self (r : Registry) (k : String) (v : ContractInstance) :
    regGet (regInsert r k v) k = some v := by
  induction r with
  | nil => simp [regInsert, regGet]
  | cons p rest ih =>
    by_cases h : p.1 = k
    · simp [regInsert, regGet, h]
    · simp [regInsert, regGet, h, ih]

/-- Inserting at a key leaves every other address untouched. -/
theorem regGet_regInsert_ne (r : Registry) (k k' : String) (v : ContractInstance)
    (h : k' ≠ k) : regGet (regInsert r k v) k' = regGet r k' := by
  induction r with
  | nil => simp [regInsert, regGet, Ne.symm h]
  | cons p rest ih =>
    by_cases hp : p.1 = k
    · subst hp
      simp [regInsert, regGet, Ne.symm h, ih]
    · simp only [regInsert, if_neg hp]
      by_cases hp' : p.1 = k'
      · simp [regGet, hp']
      · simp [regGet, hp', ih]

/-- C2: registry replacement is atomic with respect to failure: when
constructing the new instance fails, `insert_engine` leaves the whole
registry exactly as it was; when construction succeeds, the address maps to
the fully constructed new instance and every other address is untouched. -/
theorem insert_engine_atomic (load : String → Except String String)
    (wasm_file contract_addr sender_addr : String) (storage : Storage)
    (engines : Registry) :
    (∀ e, load wasm_file = .error e →
      insert_engine load wasm_file contract_addr sender_addr storage engines = engines)
    ∧ (∀ m, load wasm_file = .ok m →
        regGet (insert_engine load wasm_file contract_addr sender_addr storage engines)
            contract_addr = some ⟨m, storage⟩
        ∧ ∀ k, k ≠ contract_addr →
            regGet (insert_engine load wasm_file contract_addr sender_addr storage engines) k
              = regGet engines k) := by
  constructor
  · intro e he
    unfold insert_engine new_instance
    rw [he]
  · intro m hm
    unfold insert_engine new_instance
    rw [hm]
    exact ⟨regGet_regInsert_self engines contract_addr ⟨m, storage⟩,
      fun k hk => regGet_regInsert_ne engines contract_addr k ⟨m, storage⟩ hk⟩

/-- Witness for C2: a failing load leaves a one-entry registry unchanged,
and a succeeding load replaces the entry. -/
theorem insert_engine_atomic_witness :
    ((fun (_ : String) => (.error "boom" : Except String String)) "f.wasm" = .error "boom"
      ∧ insert_engine (fun _ => .error "boom") "f.wasm" "a" "s" []
          [("a", ⟨"m0", [("k", "v")]⟩)] = [("a", ⟨"m0", [("k", "v")]⟩)])
    ∧ ((fun (_ : String) => (.ok "m1" : Except String String)) "f.wasm" = .ok "m1"
      ∧ regGet (insert_engine (fun _ => .ok "m1") "f.wasm" "a" "s" [("k", "v")]
          [("a", ⟨"m0", []⟩)]) "a" = some ⟨"m1", [("k", "v")]⟩) :=
  ⟨⟨rfl, (insert_engine_atomic (fun _ => .error "boom") "f.wasm" "a" "s" []
      [("a", ⟨"m0", [("k", "v")]⟩)]).1 "boom" rfl⟩,
   ⟨rfl, ((insert_engine_atomic (fun _ => .ok "m1") "f.wasm" "a" "s" [("k", "v")]
      [("a", ⟨"m0", []⟩)]).2 "m1" rfl).1⟩⟩

/-- C1: when the watcher sees a changed modification time for an address
with a live instance and the rebuild from the new artifact succeeds, the
replacement instance registered for that address is seeded with the old
instance's storage snapshot, so every key/value pair readable before the
reload is still readable after it. -/
theorem watch_and_update_preserves_storage
    (load : String → Except String String) (sender_addr file addr : String)
    (mtime lastMod : Nat) (eng : ContractInstance) (engines : Registry)
    (sent : List String) (m : String)
    (hchanged : mtime ≠ lastMod) (hlive : regGet engines addr = some eng)
    (hok : load file = .ok m) :
    ∃ neweng,
      regGet (watch_iteration load sender_addr [(file, addr)] [mtime]
        ⟨[lastMod], engines, sent⟩).engines addr = some neweng
      ∧ neweng.module = m
      ∧ neweng.storage = eng.storage
      ∧ ∀ k v, readStorage eng.storage k = some v →
          readStorage neweng.storage k = some v := by
  refine ⟨⟨m, eng.storage⟩, ?_, rfl, rfl, fun k v hv => hv⟩
  unfold watch_iteration
  simp only [List.zip, List.zipWith, List.map]
  unfold watch_pass
  rw [if_neg hchanged, hlive]
  unfold insert_engine new_instance
  rw [hok]
  dsimp only
  unfold watch_pass
  exact regGet_regInsert_self engines addr ⟨m, eng.storage⟩

/-- Witness for C1: one tracked artifact whose mtime changed, a live
instance holding one stored pair, and a succeeding load. -/
theorem watch_and_update_preserves_storage_witness :
    ((5 : Nat) ≠ 0
      ∧ regGet [("a", ⟨"m0", [("k", "v")]⟩)] "a" = some ⟨"m0", [("k", "v")]⟩
      ∧ (fun (_ : String) => (.ok "m1" : Except String String)) "f.wasm" = .ok "m1")
    ∧ ∃ neweng,
        regGet (watch_iteration (fun _ => .ok "m1") "s" [("f.wasm", "a")] [5]
          ⟨[0], [("a", ⟨"m0", [("k", "v")]⟩)], []⟩).engines "a" = some neweng
        ∧ neweng.module = "m1"
        ∧ neweng.storage = [("k", "v")]
        ∧ ∀ k v, readStorage [("k", "v")] k = some v →
            readStorage neweng.storage k = some v :=
  ⟨⟨by decide, by decide, rfl⟩,
    watch_and_update_preserves_storage (fun _ => .ok "m1") "s" "f.wasm" "a" 5 0
      ⟨"m0", [("k", "v")]⟩ [("a", ⟨"m0", [("k", "v")]⟩)] [] "m1"
      (by decide) (by decide) rfl⟩

/-- Counterexample to C8 as stated: the readiness notification is sent from
inside the poll loop on every iteration, so after two poll iterations over
one tracked artifact (the second detecting no change at all) the channel has
received the first contract's address twice — the signal is re-sent on
subsequent poll iterations, and is not sent exactly once. -/
theorem watch_iteration_resends_cex :
    (watch_iteration (fun _ => .ok "m1") "s" [("f.wasm", "a")] [5]
      (watch_iteration (fun _ => .ok "m1") "s" [("f.wasm", "a")] [5]
        ⟨[0], [], []⟩)).sent = ["a", "a"]
    ∧ (["a", "a"] : List String).length ≠ 1 :=
  ⟨by decide, by decide⟩

/-- C8 (amended): every poll iteration with at least one tracked artifact
appends exactly one notification, carrying the first tracked contract's
address, to the channel; readiness is acted on once only because the waiting
session startup consumes a single message. -/
theorem watch_iteration_sends_every_pass (load : String → Except String String)
    (sender_addr : String) (wasm_files : List (String × String))
    (mtimes : List Nat) (st : WatchState) (h : wasm_files ≠ []) :
    (watch_iteration load sender_addr wasm_files mtimes st).sent
      = st.sent ++ [(wasm_files.headD ("", "")).2] := by
  unfold watch_iteration
  dsimp only
  rw [if_pos (List.length_pos.mpr h)]

/-- Witness for the amended C8: a single tracked artifact. -/
theorem watch_iteration_sends_every_pass_witness :
    ([("f.wasm", "a")] : List (String × String)) ≠ []
    ∧ (watch_iteration (fun _ => .ok "m1") "s" [("f.wasm", "a")] [7]
        ⟨[0], [], []⟩).sent = [] ++ [(([("f.wasm", "a")] :
          List (String × String)).headD ("", "")).2] :=
  ⟨by decide,
    watch_iteration_sends_every_pass (fun _ => .ok "m1") "s" [("f.wasm", "a")] [7]
      ⟨[0], [], []⟩ (by decide)⟩

/-- C6 at the failing input: two contracts are registered, the active
contract is `contract_a`, and the operator chooses `switch` and then enters
`contract_a` itself; the loop head nevertheless returns control with
`(shouldContinue = true, "contract_a")`, because the source compares the
active address against the freshly created empty `call_param` buffer instead
of the chosen address (the sibling `simulate_by_json` loop compares against
the chosen address, showing the intended repeat behavior). -/
theorem simulate_step_switch_self_returns :
    simulate_step "contract_a"
      [("contract_a", ⟨"m", []⟩), ("contract_b", ⟨"m", []⟩)]
      ["switch", "contract_a"] = (SimStep.returnSwitch true "contract_a", []) := by
  decide

/-- C7: when switching is offered (more than one registered contract), an
input that is none of init, handle, query or switch makes the loop head
repeat the call-type state with nothing dispatched. -/
theorem get_call_type_rejects_unknown (activeAddr : String) (engines : Registry)
    (call_type : String) (rest : List String)
    (hmulti : engines.length > 1)
    (h1 : call_type ≠ "init") (h2 : call_type ≠ "handle")
    (h3 : call_type ≠ "query") (h4 : call_type ≠ "switch") :
    simulate_step activeAddr engines (call_type :: rest) =
      (SimStep.repeatLoop, rest) := by
  have hnone : get_call_type engines (call_type :: rest) = (none, rest) := by
    unfold get_call_type read_input
    dsimp only
    rw [if_pos ⟨h1, h2, h3, hmulti, h4⟩]
    rfl
  unfold simulate_step
  rw [hnone]

/-- Witness for C7: two registered contracts and the unknown input `foo`. -/
theorem get_call_type_rejects_unknown_witness :
    (([("a", ⟨"m", []⟩), ("b", ⟨"m", []⟩)] : Registry).length > 1
      ∧ ("foo" : String) ≠ "init" ∧ ("foo" : String) ≠ "handle"
      ∧ ("foo" : String) ≠ "query" ∧ ("foo" : String) ≠ "switch")
    ∧ simulate_step "a" [("a", ⟨"m", []⟩), ("b", ⟨"m", []⟩)] ["foo"] =
        (SimStep.repeatLoop, []) :=
  ⟨⟨by decide, by decide, by decide, by decide, by decide⟩,
    get_call_type_rejects_unknown "a" [("a", ⟨"m", []⟩), ("b", ⟨"m", []⟩)] "foo" []
      (by decide) (by decide) (by decide) (by decide) (by decide)⟩

/-- C9: for every request to the call API, the response body is
`\x7b"data": <result>\x7d` when the address is registered and the payload
passes base64 and UTF-8 decoding; it is `\x7b"error": "<message>"\x7d` when
the address is unregistered or either decoding step fails; and in all cases
the response is one of these two shapes — nothing propagates past this
boundary. -/
theorem contract_route_shape (engines : Registry)
    (decode : String → Except String (List Nat))
    (from_utf8 : List Nat → Except String String)
    (call : ContractInstance → String → String → String)
    (address func_type msg : String) :
    (∀ eng, regGet engines address = some eng → ∀ bs, decode msg = .ok bs →
        ∀ p, from_utf8 bs = .ok p →
          contract_route engines decode from_utf8 call address func_type msg =
            "\x7b\"data\": " ++ call eng func_type p ++ "\x7d")
    ∧ (regGet engines address = none →
        contract_route engines decode from_utf8 call address func_type msg =
          "\x7b\"error\": \"" ++ ("No such contract: " ++ address) ++ "\"\x7d")
    ∧ (∀ eng, regGet engines address = some eng → ∀ e, decode msg = .error e →
        contract_route engines decode from_utf8 call address func_type msg =
          "\x7b\"error\": \"" ++ e ++ "\"\x7d")
    ∧ (∀ eng, regGet engines address = some eng → ∀ bs, decode msg = .ok bs →
        ∀ e, from_utf8 bs = .error e →
          contract_route engines decode from_utf8 call address func_type msg =
            "\x7b\"error\": \"" ++ e ++ "\"\x7d")
    ∧ ((∃ d, contract_route engines decode from_utf8 call address func_type msg =
          "\x7b\"data\": " ++ d ++ "\x7d")
      ∨ (∃ e, contract_route engines decode from_utf8 call address func_type msg =
          "\x7b\"error\": \"" ++ e ++ "\"\x7d")) := by
  refine ⟨?_, ?_, ?_, ?_, ?_⟩
  · intro eng hreg bs hdec p hutf
    unfold contract_route call_engine json_response
    rw [hreg]
    dsimp only
    rw [hdec]
    dsimp only
    rw [hutf]
  · intro hreg
    unfold contract_route call_engine json_response
    rw [hreg]
  · intro eng hreg e hdec
    unfold contract_route call_engine json_response
    rw [hreg]
    dsimp only
    rw [hdec]
  · intro eng hreg bs hdec e hutf
    unfold contract_route call_engine json_response
    rw [hreg]
    dsimp only
    rw [hdec]
    dsimp only
    rw [hutf]
  · cases hreg : regGet engines address with
    | none =>
      refine Or.inr ⟨"No such contract: " ++ address, ?_⟩
      unfold contract_route call_engine json_response
      rw [hreg]
    | some eng =>
      cases hdec : decode msg with
      | error e =>
        refine Or.inr ⟨e, ?_⟩
        unfold contract_route call_engine json_response
        rw [hreg]
        dsimp only
        rw [hdec]
      | ok bs =>
        cases hutf : from_utf8 bs with
        | error e =>
          refine Or.inr ⟨e, ?_⟩
          unfold contract_route call_engine json_response
          rw [hreg]
          dsimp only
          rw [hdec]
          dsimp only
          rw [hutf]
        | ok p =>
          refine Or.inl ⟨call eng func_type p, ?_⟩
          unfold contract_route call_engine json_response
          rw [hreg]
          dsimp only
          rw [hdec]
          dsimp only
          rw [hutf]

/-- Witness for C9: a one-entry registry with decoders that succeed, and an
unregistered address. -/
theorem contract_route_shape_witness :
    (regGet [("a", ⟨"m", []⟩)] "a" = some ⟨"m", []⟩
      ∧ (fun (_ : String) => (.ok [104] : Except String (List Nat))) "bXNn" = .ok [104]
      ∧ (fun (_ : List Nat) => (.ok "hi" : Except String String)) [104] = .ok "hi"
      ∧ contract_route [("a", ⟨"m", []⟩)] (fun _ => .ok [104]) (fun _ => .ok "hi")
          (fun _ ft p => ft ++ ":" ++ p) "a" "init" "bXNn" =
        "\x7b\"data\": " ++ ("init" ++ ":" ++ "hi") ++ "\x7d")
    ∧ (regGet [("a", ⟨"m", []⟩)] "zzz" = none
      ∧ contract_route [("a", ⟨"m", []⟩)] (fun _ => .ok [104]) (fun _ => .ok "hi")
          (fun _ ft p => ft ++ ":" ++ p) "zzz" "init" "bXNn" =
        "\x7b\"error\": \"" ++ ("No such contract: " ++ "zzz") ++ "\"\x7d") :=
  ⟨⟨by decide, rfl, rfl,
    (contract_route_shape [("a", ⟨"m", []⟩)] (fun _ => .ok [104]) (fun _ => .ok "hi")
      (fun _ ft p => ft ++ ":" ++ p) "a" "init" "bXNn").1 ⟨"m", []⟩ (by decide)
      [104] rfl "hi" rfl⟩,
   ⟨by decide,
    (contract_route_shape [("a", ⟨"m", []⟩)] (fun _ => .ok [104]) (fun _ => .ok "hi")
      (fun _ ft p => ft ++ ":" ++ p) "zzz" "init" "bXNn").2.1 (by decide)⟩⟩
